import Mathlib

/-!
Verification of the Jarvis voice-assistant pipeline.

Shallow embedding of the routing, caching, wake-word, recording and
transcription logic of the repository, together with theorems settling the
specification claims.  Python strings are modelled as Lean `String`
(lists of characters), the Python substring operator `in` as an explicit
search over character lists, dictionaries with insertion order as
association lists, wall-clock times as rationals, and the external
collaborators (audio device, Vosk recognizer, Gemini responder) as
oracle functions passed in as parameters.
-/

set_option maxHeartbeats 1000000

/-- The Python substring operator `needle in haystack` on character lists:
true iff `needle` occurs contiguously inside `haystack` (the empty needle
occurs in every string, matching Python). -/
def containsList (needle : List Char) : List Char → Bool
  | [] => needle.isEmpty
  | c :: rest => needle.isPrefixOf (c :: rest) || containsList needle rest

/-- Python `needle in haystack` on strings. -/
def strContains (haystack needle : String) : Bool :=
  containsList needle.toList haystack.toList

/-- Python `s.split(sep, 1)[1]`: the part of `s` after the first occurrence
of `sep`, or `none` when `sep` does not occur (in the source this is only
evaluated after an `in` check guarantees an occurrence). -/
def afterFirstList (sep : List Char) : List Char → Option (List Char)
  | [] => none
  | c :: rest =>
    if sep.isPrefixOf (c :: rest) then some ((c :: rest).drop sep.length)
    else afterFirstList sep rest

/-- Python `s.strip()`: remove leading and trailing whitespace. -/
def trimList (l : List Char) : List Char :=
  ((l.dropWhile Char.isWhitespace).reverse.dropWhile Char.isWhitespace).reverse

/-- Python `s.lower()`, modelled as a character-wise lower-casing map. -/
def lower (s : String) : String := String.mk (s.toList.map Char.toLower)

/-- Translated from `CommandHandler.__init__` (src/commands/command_handler.py):
the keys of the `self.commands` dict in insertion (= iteration) order.  Each
handler object is identified by the key it is registered under, since every
dict value is a distinct handler instance determined by its key. -/
def commandKeys : List String :=
  ["open", "play", "generate image", "take screenshot", "start recording",
   "stop recording", "search for", "weather", "forecast", "remind",
   "list reminders", "timer", "list timers", "calendar", "schedule",
   "event", "note", "voice memo"]

/-- Translated from `CommandHandler.__init__`: the `self.command_aliases`
dict as (alias, target key) pairs in insertion order. -/
def commandAliases : List (String × String) :=
  [("launch", "open"), ("run", "open"), ("start", "play"),
   ("create image", "generate image"), ("make image", "generate image"),
   ("capture screen", "take screenshot"), ("record screen", "start recording"),
   ("end recording", "stop recording"), ("look up", "search for"),
   ("find", "search for"), ("set a timer", "timer"), ("set timer", "timer"),
   ("show reminders", "list reminders"), ("show timers", "list timers"),
   ("check weather", "weather"), ("weather forecast", "forecast"),
   ("add event", "event"), ("new event", "event"), ("show events", "calendar"),
   ("list events", "calendar"), ("delete event", "event"),
   ("remove event", "event"), ("take note", "note"), ("add note", "note"),
   ("list notes", "note"), ("show notes", "note"), ("search notes", "note"),
   ("start recording memo", "voice memo"), ("stop recording memo", "voice memo"),
   ("play memo", "voice memo"), ("list memos", "voice memo")]

/-- Translated from `CommandHandler._get_command`: scan the direct command
keys in registration order and return the handler (identified by its key)
of the first key occurring as a substring of `text`; only if none matches,
scan the aliases in registration order and resolve the first matching alias
through `self.commands.get` (which yields `none` for a dead target). -/
def get_command (text : String) : Option String :=
  match commandKeys.find? (fun k => strContains text k) with
  | some k => some k
  | none =>
    match commandAliases.find? (fun p => strContains text p.1) with
    | some (_, tgt) => if commandKeys.contains tgt then some tgt else none
    | none => none

/-- The command text extracted by `process_command` once "jarvis" is known to
occur: `transcription.split("jarvis", 1)[1].strip()` (on character lists). -/
def cmdTextList (l : List Char) : List Char :=
  trimList ((afterFirstList "jarvis".toList l).getD [])

/-- Observable outcome of one `CommandHandler.process_command` dispatch:
the returned string, the registry key of the executed handler (if any), and
the query passed to the chatbot fallback (if any). -/
structure DispatchResult where
  outcome : String
  handlerInvoked : Option String
  chatbotQuery : Option String
deriving Repr, DecidableEq

/-- Translated from `CommandHandler.process_command`; `handlerResult k` is
the string returned by executing the handler registered under key `k`.
The source wraps the body in a try/except returning "continue", so the
embedding is a total function (dispatch never raises to its caller).  The
chatbot branch (`_handle_chatbot_query`) returns "continue" on both its
success and its error path. -/
def process_command (handlerResult : String → String) (transcription : String) :
    DispatchResult :=
  if transcription = "" then ⟨"continue", none, none⟩
  else
    let t := lower transcription
    if strContains t "stop listening" then ⟨"stop", none, none⟩
    else if strContains t "thanks" || strContains t "thank you" then
      ⟨"continue", none, none⟩
    else if strContains t "jarvis" then
      let ct := String.mk (cmdTextList t.toList)
      match get_command ct with
      | some k => ⟨handlerResult k, some k, none⟩
      | none => ⟨"continue", none, some ct⟩
    else ⟨"continue", none, none⟩

/-- Whether some registered direct command key occurs as a substring. -/
def hasDirectKey (text : String) : Bool :=
  commandKeys.any (fun k => strContains text k)

/-- Whether some registered alias occurs as a substring. -/
def hasAlias (text : String) : Bool :=
  commandAliases.any (fun p => strContains text p.1)

/-- Translated from `WakeWordDetector.__init__`
(src/voice_activation/wake_word_detector.py): `self.detection_cooldown = 1.0`
seconds.  Wall-clock times are modelled as rationals. -/
def detection_cooldown : ℚ := 1

/-- Mutable detection state of `WakeWordDetector`: the time of the last
positive return and the frame counter.  The detector keeps no decoded text
between polls. -/
structure WakeState where
  lastDetectionTime : ℚ
  frameCounter : Nat
deriving Repr, DecidableEq

/-- Translated from `WakeWordDetector.listen_for_wake_word`.  One poll call:
`readResult` is `none` when the read/decode raised (the except branch logs,
possibly reopens the stream, and returns false), and `some (accepted, text)`
when the read succeeded, where `accepted` is the value of
`recognizer.AcceptWaveform(data)` and `text` the decoded text of
`recognizer.Result()`.  `now` is `time.time()` at the call.  Returns the
boolean result together with the updated state. -/
def listen_for_wake_word (s : WakeState) (readResult : Option (Bool × String))
    (now : ℚ) : Bool × WakeState :=
  match readResult with
  | none => (false, s)
  | some (accepted, text) =>
    let s1 : WakeState := { s with frameCounter := s.frameCounter + 1 }
    if accepted then
      let t := lower text
      if t ≠ "" ∧ strContains t "jarvis" = true ∧
          detection_cooldown < now - s.lastDetectionTime then
        (true, { s1 with lastDetectionTime := now })
      else (false, s1)
    else (false, s1)

/-- The `self.response_cache` dict of `ChatBot` (src/chatbot/chatbot.py):
an insertion-ordered association list from input text to response text
(Python dicts preserve insertion order; `next(iter(d))` is the oldest key). -/
abbrev Cache := List (String × String)

/-- Python `input_text in self.response_cache` followed by
`self.response_cache[input_text]`. -/
def cacheLookup (c : Cache) (k : String) : Option String :=
  (c.find? (fun p => p.1 == k)).map Prod.snd

/-- Fixed reply of `respond_async` for empty input. -/
def emptyInputReply : String := "I didn\x27t receive any input to respond to."

/-- The apologetic string in the except suite of `respond_async`.  In the
source this `return` is dead code: the preceding
`ErrorHandler.handle_error(e, ...)` call is an instance method invoked
unbound at class level (the exception becomes `self`), so `self.logger`
raises `AttributeError` (and the fallback `self.logger.critical` in the
inner except raises again), and the string is never returned. -/
def generationFailureReply : String :=
  "I apologize, but I encountered an error processing your request."

/-- Translated from `ChatBot.respond_async`.  `gen` is the external
responder (`generate_content` + `_extract_reply`): `some reply` on success,
`none` when it raises.  Returns `some text` when the call returns `text`,
or `none` in the first component when the call raises to its caller,
together with the cache after the call and whether the responder was
invoked.  On a miss with successful generation the entry is appended (dict
insertion goes at the end) and, if the size then exceeds 1000, the oldest
entry (`next(iter(dict))`, the head) is popped.  On a raised generation the
except suite calls `ErrorHandler.handle_error` unbound, which itself raises
`AttributeError`, so the call raises with the cache still unchanged — the
apologetic `return` below that call is unreachable. -/
def respond_async (gen : String → Option String) (c : Cache) (t : String) :
    Option String × Cache × Bool :=
  if t = "" then (some emptyInputReply, c, false)
  else
    match cacheLookup c t with
    | some r => (some r, c, false)
    | none =>
      match gen t with
      | some reply =>
        let c1 := c ++ [(t, reply)]
        let c2 := if c1.length > 1000 then c1.drop 1 else c1
        (some reply, c2, true)
      | none => (none, c, true)

/-- The cache produced by a sequence of `respond_async` calls starting
from cache `c`. -/
def foldRespond (gen : String → Option String) (c : Cache) (ts : List String) :
    Cache :=
  ts.foldl (fun acc t => (respond_async gen acc t).2.1) c

/-- Translated from `Recorder.__init__` (src/audio/recorder.py):
`self.chunk = 1024`. -/
def recChunk : Nat := 1024

/-- Translated from `Recorder.__init__`: `self.rate = 16000`. -/
def recRate : Nat := 16000

/-- Translated from `Recorder.record`:
`total_frames = int(self.rate / self.chunk * self.record_seconds)`.
Since 16000/1024 = 15.625 is exact in floating point, the Python `int(...)`
truncation equals natural-number division `rate * seconds / chunk`. -/
def totalFrames (seconds : Nat) : Nat := recRate * seconds / recChunk

/-- The claimed frame bound `ceil(16000 * d / 1024)` (written from the words
of the claim, for comparison with the truncating computation of the source). -/
def ceilFrames (seconds : Nat) : Nat := (recRate * seconds + recChunk - 1) / recChunk

/-- One attempt-counting pass of the retry loop of `Recorder._setup_stream`:
`openResults i` tells whether the i-th `self.audio.open` call succeeds
(`true`) or raises (`false`).  Returns the stream (abstracted to `Unit`)
or `none`, together with the number of open attempts made. -/
def setupLoop (openResults : Nat → Bool) : Nat → Nat → Option Unit × Nat
  | 0, made => (none, made)
  | n + 1, made =>
    if openResults made then (some (), made + 1)
    else setupLoop openResults n (made + 1)

/-- Translated from `Recorder._setup_stream`: `max_retries = 3`; on the last
failed attempt the function returns `None` instead of raising. -/
def setup_stream (openResults : Nat → Bool) : Option Unit × Nat :=
  setupLoop openResults 3 0

/-- Observable outcome of one `Recorder.record` call.  `result` is
`some r` when the call returns `r` to its caller (`r` itself being the
artifact path or the returned `None`), and `none` when the call raises an
exception to its caller; `frames` are the collected frames, `openAttempts`
the number of device-open attempts, `cleanupInvoked` whether
`_cleanup_stream` was invoked, and `finallyExecuted` whether the `finally`
block (the stream-cleanup path) was reached. -/
structure RecordRun where
  result : Option (Option String)
  frames : List (List Int)
  openAttempts : Nat
  cleanupInvoked : Bool
  finallyExecuted : Bool
deriving Repr, DecidableEq

/-- Translated from `Recorder.record`.  `reads i` gives the i-th
`stream.read` result: `some chunk` on success, `none` when the read raised
(the except branch logs and `continue`s, skipping the frame).  `saveOk`
is whether `_save_audio` succeeds (on its own failure it returns `None`
through its local try/except, which `record` returns normally).  When
`_setup_stream` fails, `record` raises internally and its except suite
calls `ErrorHandler.handle_error(e, ...)` — an instance method invoked
unbound at class level, so `self.logger` raises `AttributeError` — hence
the `return None` below that call is unreachable: the `finally` block runs
(with `stream` bound to `None`, the guard
`if "stream" in locals() and stream` skips `_cleanup_stream`) and the
`AttributeError` then propagates to the caller of `record`. -/
def record (openResults : Nat → Bool) (reads : Nat → Option (List Int))
    (saveOk : Bool) (seconds : Nat) : RecordRun :=
  match setup_stream openResults with
  | (none, n) =>
    { result := none, frames := [], openAttempts := n,
      cleanupInvoked := false, finallyExecuted := true }
  | (some _, n) =>
    let fs := (List.range (totalFrames seconds)).filterMap reads
    { result := some (if saveOk then some "audio/recording.wav" else none),
      frames := fs, openAttempts := n,
      cleanupInvoked := true, finallyExecuted := true }

/-- A WAV artifact as observed through the `wave` module by
`Transcriber.transcribe_audio`: channel count, sample width in bytes,
frame rate, and the audio content in 4000-frame chunks. -/
structure WavFile where
  nchannels : Nat
  sampwidth : Nat
  framerate : Nat
  chunks : List (List Int)
deriving Repr, DecidableEq

/-- Observable outcome of one `Transcriber.transcribe_audio` call: the
returned text (or `None`) and whether any audio was fed to the recognizer. -/
structure TranscribeRun where
  result : Option String
  recognizerFed : Bool
deriving Repr, DecidableEq

/-- Translated from `Transcriber.transcribe_audio`
(src/transcription/transcriber.py).  `file` is `none` when the path does
not exist.  `rec` is the Vosk recognizer pipeline over the whole content
(`AcceptWaveform`/`Result` loop plus `FinalResult`): `some text` for the
joined transcription, `none` when it raises (caught, returning `None`).
A file whose header is not exactly mono / 16-bit / 16000 Hz is rejected
before any frame is fed to the recognizer. -/
def transcribe_audio (rec : List (List Int) → Option String)
    (file : Option WavFile) : TranscribeRun :=
  match file with
  | none => { result := none, recognizerFed := false }
  | some wf =>
    if wf.nchannels ≠ 1 ∨ wf.sampwidth ≠ 2 ∨ wf.framerate ≠ 16000 then
      { result := none, recognizerFed := false }
    else
      match rec wf.chunks with
      | some text => { result := some text, recognizerFed := true }
      | none => { result := none, recognizerFed := true }

/-- The ways the orchestrator loop in `run_assistant` (src/main.py) can shut
down once the `with WakeWordDetector(config)` block has been entered: the
stop phrase breaks out of the `while`, or a `KeyboardInterrupt` escapes it
(every other exception is caught inside the loop, which then continues). -/
inductive LoopExit
  | stopCommand
  | keyboardInterrupt
deriving Repr, DecidableEq

/-- Events on a shutdown path of `run_assistant`. -/
inductive AssistEvent
  | withEnter
  | withExitCleanup
  | exceptHandled
  | finallyCleanup
deriving Repr, DecidableEq

/-- Translated from the control flow of `run_assistant` (src/main.py):
the scope exit of the `with` statement calls `wake_detector.cleanup()` (via
`WakeWordDetector.__exit__`) on every exit of its suite, and afterwards the
outer `finally` block, finding `"wake_detector" in locals()` true, calls
`wake_detector.cleanup()` a second time.  On a `KeyboardInterrupt` the
`except KeyboardInterrupt` handler runs between the two. -/
def run_assistant_events : LoopExit → List AssistEvent
  | .stopCommand => [.withEnter, .withExitCleanup, .finallyCleanup]
  | .keyboardInterrupt =>
    [.withEnter, .withExitCleanup, .exceptHandled, .finallyCleanup]

/-- Number of `wake_detector.cleanup()` invocations on a shutdown path:
both `withExitCleanup` and `finallyCleanup` invoke it. -/
def cleanup_invocations (e : LoopExit) : Nat :=
  (run_assistant_events e).countP
    (fun ev => ev = AssistEvent.withExitCleanup ∨ ev = AssistEvent.finallyCleanup)

/-- Distinct non-empty texts used to exercise the cache: the n-th key is a
string of n+1 copies of 'a'. -/
def mkKey (n : Nat) : String := String.mk (List.replicate (n + 1) 'a')

/-- A list of 1001 distinct non-empty input texts. -/
def c3Keys : List String := (List.range 1001).map mkKey

/-- The substring search agrees with list-infix containment. -/
theorem containsList_iff (n : List Char) :
    ∀ h : List Char, containsList n h = true ↔ n <:+: h := by
  intro h
  induction h with
  | nil =>
    simp [containsList, List.isEmpty_iff]
  | cons c rest ih =>
    simp [containsList, ih, List.infix_cons_iff]

/-- Substring containment is monotone under list-infix extension. -/
theorem containsList_mono {n h H : List Char} (hsub : h <:+: H)
    (hc : containsList n h = true) : containsList n H = true :=
  (containsList_iff n H).mpr (((containsList_iff n h).mp hc).trans hsub)

/-- A prefix is an infix. -/
theorem infix_of_pre {l₁ l₂ : List Char} (h : l₁ <+: l₂) : l₁ <:+: l₂ := by
  obtain ⟨t, ht⟩ := h
  exact ⟨[], t, by simpa using ht⟩

/-- A suffix is an infix. -/
theorem infix_of_suf {l₁ l₂ : List Char} (h : l₁ <:+ l₂) : l₁ <:+: l₂ := by
  obtain ⟨s, hs⟩ := h
  exact ⟨s, [], by simpa using hs⟩

/-- The remainder after the first separator occurrence is a suffix. -/
theorem afterFirstList_suf (sep : List Char) :
    ∀ l r : List Char, afterFirstList sep l = some r → r <:+ l := by
  intro l
  induction l with
  | nil => intro r hr; simp [afterFirstList] at hr
  | cons c rest ih =>
    intro r hr
    rw [afterFirstList] at hr
    split at hr
    · cases hr
      exact List.drop_suffix _ _
    · exact (ih r hr).trans ⟨[c], rfl⟩

/-- Stripping whitespace yields an infix of the original list. -/
theorem trimList_sub (l : List Char) : trimList l <:+: l := by
  unfold trimList
  have h1 : l.dropWhile Char.isWhitespace <:+ l := List.dropWhile_suffix _
  have h2 : (l.dropWhile Char.isWhitespace).reverse.dropWhile Char.isWhitespace <:+
      (l.dropWhile Char.isWhitespace).reverse := List.dropWhile_suffix _
  have h3 : ((l.dropWhile Char.isWhitespace).reverse.dropWhile
      Char.isWhitespace).reverse <+: l.dropWhile Char.isWhitespace := by
    rw [← List.reverse_suffix]
    simpa using h2
  exact (infix_of_pre h3).trans (infix_of_suf h1)

/-- The extracted command text is an infix of the transcription. -/
theorem cmdTextList_sub (l : List Char) : cmdTextList l <:+: l := by
  unfold cmdTextList
  rcases haf : afterFirstList "jarvis".toList l with _ | r
  · simpa [haf] using (trimList_sub []).trans ⟨[], l, by simp⟩
  · simpa [haf] using (trimList_sub r).trans (infix_of_suf (afterFirstList_suf _ l r haf))

/-- If no direct key occurs in the full text, none occurs in an infix. -/
theorem no_key_of_sub {sub full : String} (hsub : sub.toList <:+: full.toList)
    (h : hasDirectKey full = false) : hasDirectKey sub = false := by
  rw [hasDirectKey, List.any_eq_false] at h ⊢
  intro k hk hcontra
  exact h k hk (containsList_mono hsub hcontra)

/-- If no alias occurs in the full text, none occurs in an infix. -/
theorem no_alias_of_sub {sub full : String} (hsub : sub.toList <:+: full.toList)
    (h : hasAlias full = false) : hasAlias sub = false := by
  rw [hasAlias, List.any_eq_false] at h ⊢
  intro p hp hcontra
  exact h p hp (containsList_mono hsub hcontra)

/-- With neither a direct key nor an alias in the text, the lookup misses. -/
theorem get_command_none {t : String} (hkey : hasDirectKey t = false)
    (halias : hasAlias t = false) : get_command t = none := by
  rw [hasDirectKey, List.any_eq_false] at hkey
  rw [hasAlias, List.any_eq_false] at halias
  unfold get_command
  rw [List.find?_eq_none.mpr fun k hk => by simp [hkey k hk],
    List.find?_eq_none.mpr fun p hp => by simp [halias p hp]]

/-- Claim C1: for every lower-cased text containing both a registered direct
command key and a registered alias whose target key differs, `_get_command`
returns the handler of a direct key — the first direct key (in registration
order) occurring as a substring of the text — and never the alias target:
direct keys are scanned before any alias is considered. -/
theorem c1_direct_key_wins (t k a tgt : String)
    (hk : k ∈ commandKeys) (hkt : strContains t k = true)
    (ha : (a, tgt) ∈ commandAliases) (hat : strContains t a = true)
    (hdiff : tgt ≠ k) :
    ∃ k', get_command t = some k' ∧
      commandKeys.find? (fun key => strContains t key) = some k' ∧
      k' ∈ commandKeys ∧ strContains t k' = true := by
  have hsome : (commandKeys.find? (fun key => strContains t key)).isSome := by
    rw [List.find?_isSome]
    exact ⟨k, hk, hkt⟩
  obtain ⟨k', hk'⟩ := Option.isSome_iff_exists.mp hsome
  refine ⟨k', ?_, hk', List.mem_of_find?_eq_some hk', List.find?_some hk'⟩
  unfold get_command
  rw [hk']

/-- Witness for C1: "open the file and find it" contains the direct key
"open" and the alias "find" (target "search for" ≠ "open"); the direct key
wins. -/
theorem c1_witness :
    ∃ k', get_command "open the file and find it" = some k' ∧
      commandKeys.find? (fun key => strContains "open the file and find it" key)
        = some k' ∧
      k' ∈ commandKeys ∧ strContains "open the file and find it" k' = true :=
  c1_direct_key_wins "open the file and find it" "open" "find" "search for"
    (by decide) (by decide) (by decide) (by decide) (by decide)

/-- Counterexample to claim C7 as stated: "hello" is non-empty, contains no
stop phrase, no thanks phrase, no registered direct key and no registered
alias, yet `process_command` does NOT fall through to the conversational
responder (the fallback is reached only when the text contains "jarvis");
it returns "continue" with the responder never consulted. -/
theorem c7_counterexample :
    "hello" ≠ "" ∧
    strContains "hello" "stop listening" = false ∧
    strContains "hello" "thanks" = false ∧
    strContains "hello" "thank you" = false ∧
    hasDirectKey "hello" = false ∧
    hasAlias "hello" = false ∧
    (process_command (fun _ => "continue") "hello").chatbotQuery = none ∧
    (process_command (fun _ => "continue") "hello").outcome = "continue" := by
  decide

/-- Claim C7 (amended): for every non-empty input text that contains
"jarvis" but no stop phrase, no thanks phrase, no registered direct key and
no registered alias, `process_command` falls through to the
ResponseCache-backed conversational responder with the post-"jarvis"
stripped text as the query, never raises (the embedding is total), and
returns Continue.  Texts without "jarvis" never reach the responder. -/
theorem c7_fallback (hr : String → String) (t : String)
    (hne : t ≠ "")
    (hstop : strContains (lower t) "stop listening" = false)
    (hthanks : strContains (lower t) "thanks" = false)
    (hthankyou : strContains (lower t) "thank you" = false)
    (hkey : hasDirectKey (lower t) = false)
    (halias : hasAlias (lower t) = false)
    (hj : strContains (lower t) "jarvis" = true) :
    process_command hr t =
      ⟨"continue", none, some (String.mk (cmdTextList (lower t).toList))⟩ := by
  have hsub : (String.mk (cmdTextList (lower t).toList)).toList <:+:
      (lower t).toList := cmdTextList_sub (lower t).toList
  have hgc : get_command (String.mk (cmdTextList (lower t).data)) = none :=
    get_command_none (no_key_of_sub hsub hkey) (no_alias_of_sub hsub halias)
  simp [process_command, hne, hstop, hthanks, hthankyou, hj, hgc]

/-- Witness for C7 (amended): "jarvis hello" falls through to the chatbot
with query "hello" and outcome "continue". -/
theorem c7_witness :
    process_command (fun _ => "continue") "jarvis hello" =
      ⟨"continue", none,
        some (String.mk (cmdTextList (lower "jarvis hello").toList))⟩ :=
  c7_fallback (fun _ => "continue") "jarvis hello" (by decide) (by decide)
    (by decide) (by decide) (by decide) (by decide) (by decide)

/-- Claim C10: an empty text, or a text containing neither the stop phrase,
a thanks phrase, nor the word "jarvis", makes `process_command` return
Continue without invoking any registered handler and without invoking the
conversational responder; matching and the conversational fallback are
gated on the text containing "jarvis", and for texts that do contain it
(and are not stop/thanks) the matched substring is the portion after the
first "jarvis" with surrounding whitespace stripped. -/
theorem c10_jarvis_gating (hr : String → String) (t : String)
    (h : t = "" ∨ (strContains (lower t) "stop listening" = false ∧
      strContains (lower t) "thanks" = false ∧
      strContains (lower t) "thank you" = false ∧
      strContains (lower t) "jarvis" = false)) :
    process_command hr t = ⟨"continue", none, none⟩ ∧
    ∀ s : String, s ≠ "" →
      strContains (lower s) "stop listening" = false →
      strContains (lower s) "thanks" = false →
      strContains (lower s) "thank you" = false →
      strContains (lower s) "jarvis" = true →
      ((process_command hr s).handlerInvoked =
          get_command (String.mk (cmdTextList (lower s).data)) ∧
        (get_command (String.mk (cmdTextList (lower s).data)) = none →
          (process_command hr s).chatbotQuery =
            some (String.mk (cmdTextList (lower s).data)))) := by
  constructor
  · rcases h with rfl | ⟨hstop, hthanks, hthankyou, hj⟩
    · simp [process_command]
    · by_cases hne : t = ""
      · simp [process_command, hne]
      · simp [process_command, hne, hstop, hthanks, hthankyou, hj]
  · intro s hne hstop hthanks hthankyou hj
    rcases hgc : get_command (String.mk (cmdTextList (lower s).data)) with _ | k <;>
      simp [process_command, hne, hstop, hthanks, hthankyou, hj, hgc]

/-- Witness for C10: the text "hello there" (non-empty, no stop phrase, no
thanks phrase, no "jarvis") yields Continue with neither a handler nor the
responder invoked. -/
theorem c10_witness :
    process_command (fun _ => "continue") "hello there" =
      ⟨"continue", none, none⟩ :=
  (c10_jarvis_gating (fun _ => "continue") "hello there"
    (Or.inr (by refine ⟨?_, ?_, ?_, ?_⟩ <;> decide))).1

/-- Claim C2: two `listen_for_wake_word` polls whose decoded finalized texts
both contain the trigger phrase and whose call times are separated by less
than the cooldown yield at most one `true`; moreover, when the first poll
detects, the suppressed second poll leaves the detection state field
`last_detection_time` unchanged — the suppressed text is discarded, not
queued or merged (the state carries no text at all). -/
theorem c2_cooldown_suppression (s : WakeState) (t₁ t₂ : ℚ) (a₁ a₂ : String)
    (h₁ : strContains (lower a₁) "jarvis" = true)
    (h₂ : strContains (lower a₂) "jarvis" = true)
    (hwin : t₂ - t₁ < detection_cooldown) :
    ¬ ((listen_for_wake_word s (some (true, a₁)) t₁).1 = true ∧
        (listen_for_wake_word (listen_for_wake_word s (some (true, a₁)) t₁).2
          (some (true, a₂)) t₂).1 = true) ∧
    ((listen_for_wake_word s (some (true, a₁)) t₁).1 = true →
      (listen_for_wake_word (listen_for_wake_word s (some (true, a₁)) t₁).2
          (some (true, a₂)) t₂).2.lastDetectionTime =
        (listen_for_wake_word s (some (true, a₁)) t₁).2.lastDetectionTime) := by
  unfold listen_for_wake_word
  by_cases hc₁ : lower a₁ ≠ "" ∧ strContains (lower a₁) "jarvis" = true ∧
      detection_cooldown < t₁ - s.lastDetectionTime
  · have hno : ¬ (lower a₂ ≠ "" ∧ strContains (lower a₂) "jarvis" = true ∧
        detection_cooldown < t₂ - t₁) := by
      rintro ⟨-, -, hlt⟩
      exact absurd (hlt.trans hwin) (lt_irrefl _)
    simp [hc₁, hno]
  · simp [hc₁]

/-- Witness for C2: from a quiescent state (last detection 5 seconds in the
past), a detection at time 0 and a second trigger half a second later: the
second is suppressed. -/
theorem c2_witness :
    ¬ ((listen_for_wake_word ⟨-5, 0⟩ (some (true, "hey jarvis")) 0).1 = true ∧
        (listen_for_wake_word
          (listen_for_wake_word ⟨-5, 0⟩ (some (true, "hey jarvis")) 0).2
          (some (true, "jarvis again")) (1/2)).1 = true) ∧
    ((listen_for_wake_word ⟨-5, 0⟩ (some (true, "hey jarvis")) 0).1 = true →
      (listen_for_wake_word
          (listen_for_wake_word ⟨-5, 0⟩ (some (true, "hey jarvis")) 0).2
          (some (true, "jarvis again")) (1/2)).2.lastDetectionTime =
        (listen_for_wake_word ⟨-5, 0⟩
          (some (true, "hey jarvis")) 0).2.lastDetectionTime) :=
  c2_cooldown_suppression ⟨-5, 0⟩ 0 (1/2) "hey jarvis" "jarvis again"
    (by decide) (by decide) (by norm_num [detection_cooldown])

/-- A key absent from an association-list cache is not found. -/
theorem cacheLookup_eq_none {c : Cache} {t : String}
    (h : ∀ p ∈ c, p.1 ≠ t) : cacheLookup c t = none := by
  have hf : c.find? (fun p => p.1 == t) = none :=
    List.find?_eq_none.mpr (fun p hp => by simp [h p hp])
  simp [cacheLookup, hf]

/-- Shifting a single dropped head across an append. -/
theorem drop_one_shift {α : Type} (K ts : List α) (hK : 1 ≤ K.length)
    (m : Nat) : (K.drop 1 ++ ts).drop m = (K ++ ts).drop (m + 1) := by
  rw [List.drop_append_eq_append_drop, List.drop_append_eq_append_drop,
    List.drop_drop]
  have h1 : 1 + m = m + 1 := Nat.add_comm 1 m
  have h2 : m - (K.drop 1).length = m + 1 - K.length := by
    simp only [List.length_drop]
    omega
  rw [h1, h2]

/-- Key sequence of the cache after a run of successful cache-missing
`respond_async` calls: the keys are the old keys followed by the new texts,
with the oldest entries dropped so that at most 1000 remain. -/
theorem foldRespond_keys (gen : String → Option String) :
    ∀ (ts : List String) (c : Cache), c.length ≤ 1000 → ts.Nodup →
    (∀ x ∈ ts, x ≠ "" ∧ (gen x).isSome ∧ ∀ p ∈ c, p.1 ≠ x) →
    (foldRespond gen c ts).map Prod.fst =
      (c.map Prod.fst ++ ts).drop (c.length + ts.length - 1000) := by
  intro ts
  induction ts with
  | nil =>
    intro c hc _ _
    have hz : c.length - 1000 = 0 := by omega
    simp [foldRespond, hz]
  | cons t ts ih =>
    intro c hc hnd hcond
    obtain ⟨hne, hgen, hfresh⟩ := hcond t (by simp)
    obtain ⟨r, hr⟩ := Option.isSome_iff_exists.mp hgen
    have hlook : cacheLookup c t = none := cacheLookup_eq_none hfresh
    have hstep : (respond_async gen c t).2.1 =
        if c.length + 1 > 1000 then (c ++ [(t, r)]).drop 1 else c ++ [(t, r)] := by
      simp [respond_async, hne, hlook, hr]
    have hfold : foldRespond gen c (t :: ts) =
        foldRespond gen ((respond_async gen c t).2.1) ts := rfl
    have htmem : t ∉ ts := (List.nodup_cons.mp hnd).1
    by_cases hfull : c.length + 1 > 1000
    · have hcl : c.length = 1000 := by omega
      have hcond2 : ∀ x ∈ ts, x ≠ "" ∧ (gen x).isSome ∧
          ∀ p ∈ (c ++ [(t, r)]).drop 1, p.1 ≠ x := by
        intro x hx
        obtain ⟨hx1, hx2, hx3⟩ := hcond x (by simp [hx])
        refine ⟨hx1, hx2, fun p hp => ?_⟩
        have hp' : p ∈ c ++ [(t, r)] :=
          (List.drop_suffix 1 (c ++ [(t, r)])).sublist.subset hp
        rcases List.mem_append.mp hp' with hpc | hpt
        · exact hx3 p hpc
        · simp at hpt
          subst hpt
          intro hcontra
          exact htmem (by rw [show t = x from hcontra]; exact hx)
      have ihres := ih ((c ++ [(t, r)]).drop 1)
        (by simp [hcl]) (List.nodup_cons.mp hnd).2 hcond2
      rw [hfold, hstep, if_pos hfull, ihres]
      have hkdrop : ((c ++ [(t, r)]).drop 1).map Prod.fst =
          (c.map Prod.fst ++ [t]).drop 1 := by
        rw [List.map_drop]
        simp
      have hldrop : ((c ++ [(t, r)]).drop 1).length = 1000 := by
        simp [hcl]
      rw [hkdrop, hldrop, drop_one_shift _ _ (by simp [hcl])]
      have hamt : 1000 + ts.length - 1000 + 1 =
          c.length + (t :: ts).length - 1000 := by
        simp only [List.length_cons]
        omega
      rw [hamt]
      simp
    · have hcond2 : ∀ x ∈ ts, x ≠ "" ∧ (gen x).isSome ∧
          ∀ p ∈ c ++ [(t, r)], p.1 ≠ x := by
        intro x hx
        obtain ⟨hx1, hx2, hx3⟩ := hcond x (by simp [hx])
        refine ⟨hx1, hx2, fun p hp => ?_⟩
        rcases List.mem_append.mp hp with hpc | hpt
        · exact hx3 p hpc
        · simp at hpt
          subst hpt
          intro hcontra
          exact htmem (by rw [show t = x from hcontra]; exact hx)
      have ihres := ih (c ++ [(t, r)])
        (by simp only [List.length_append, List.length_cons, List.length_nil]; omega)
        (List.nodup_cons.mp hnd).2 hcond2
      rw [hfold, hstep, if_neg hfull, ihres]
      have hamt : (c ++ [(t, r)]).length + ts.length - 1000 =
          c.length + (t :: ts).length - 1000 := by
        simp only [List.length_append, List.length_cons, List.length_nil]
        omega
      rw [hamt]
      simp

/-- Claim C3: over any sequence of 1001 distinct non-empty texts on which
generation succeeds, `respond_async` starting from an empty cache leaves
exactly the last 1000 keys, in insertion order (FIFO): the first-inserted
key is no longer present after the 1001st insertion, and the cache size
never exceeds 1000 after any insertion completes. -/
theorem c3_fifo_eviction (gen : String → Option String) (ts : List String)
    (hlen : ts.length = 1001) (hnd : ts.Nodup)
    (hcond : ∀ x ∈ ts, x ≠ "" ∧ (gen x).isSome) :
    (foldRespond gen [] ts).map Prod.fst = ts.drop 1 ∧
    (∀ k, ts.head? = some k → k ∉ (foldRespond gen [] ts).map Prod.fst) ∧
    (∀ n : Nat, (foldRespond gen [] (ts.take n)).length ≤ 1000) := by
  have hmain : (foldRespond gen [] ts).map Prod.fst = ts.drop 1 := by
    have h := foldRespond_keys gen ts [] (by simp) hnd
      (fun x hx => ⟨(hcond x hx).1, (hcond x hx).2, by simp⟩)
    simpa [hlen] using h
  refine ⟨hmain, ?_, ?_⟩
  · intro k hk
    rw [hmain]
    cases ts with
    | nil => simp at hk
    | cons a rest =>
      simp at hk
      subst hk
      simpa using (List.nodup_cons.mp hnd).1
  · intro n
    have h := foldRespond_keys gen (ts.take n) [] (by simp)
      (hnd.sublist (List.take_sublist n ts))
      (fun x hx => ⟨(hcond x (List.take_subset n ts hx)).1,
        (hcond x (List.take_subset n ts hx)).2, by simp⟩)
    have hlenmap : (foldRespond gen [] (ts.take n)).length =
        ((foldRespond gen [] (ts.take n)).map Prod.fst).length :=
      (List.length_map _ _).symm
    rw [hlenmap, h]
    simp only [List.map_nil, List.nil_append, List.length_nil, List.length_drop,
      Nat.zero_add]
    omega

/-- The witness keys are pairwise distinct. -/
theorem mkKey_injective : Function.Injective mkKey := by
  intro a b h
  have hl : a + 1 = b + 1 := by
    simpa [mkKey] using congrArg List.length (congrArg String.data h)
  omega

/-- A witness key is never the empty string. -/
theorem mkKey_ne_empty (n : Nat) : mkKey n ≠ "" := by
  intro h
  have hl := congrArg List.length (congrArg String.data h)
  simp [mkKey] at hl

/-- Witness for C3: inserting the 1001 concrete distinct keys `c3Keys` into
an empty cache leaves exactly the keys after the first, in order. -/
theorem c3_witness :
    (foldRespond (fun t => some t) [] c3Keys).map Prod.fst = c3Keys.drop 1 :=
  (c3_fifo_eviction (fun t => some t) c3Keys
    (by simp [c3Keys])
    ((List.nodup_range 1001).map mkKey_injective)
    (fun x hx => by
      obtain ⟨n, -, rfl⟩ := List.mem_map.mp hx
      exact ⟨mkKey_ne_empty n, rfl⟩)).1

/-- Claim C4 (code bug): a cache hit does return the stored response
without invoking the responder; but on a raised generation the source never
returns its fixed apologetic string — the except suite first calls
`ErrorHandler.handle_error(e, "generating response")`, an instance method
invoked unbound at class level (the exception becomes `self`), which raises
`AttributeError`, so `respond_async` raises to its caller and the
apologetic `return` is dead code.  The failed text is still not cached (the
exception propagates before any cache write), so an identical follow-up
query still invokes the responder again. -/
theorem c4_generation_failure_raises (gen : String → Option String)
    (c : Cache) (t : String) (hne : t ≠ "") :
    (∀ r, cacheLookup c t = some r →
      respond_async gen c t = (some r, c, false)) ∧
    (cacheLookup c t = none → gen t = none →
      respond_async gen c t = (none, c, true) ∧
      respond_async gen c t ≠ (some generationFailureReply, c, true) ∧
      (respond_async gen (respond_async gen c t).2.1 t).2.2 = true) := by
  constructor
  · intro r hr
    simp [respond_async, hne, hr]
  · intro hl hg
    have h1 : respond_async gen c t = (none, c, true) := by
      simp [respond_async, hne, hl, hg]
    exact ⟨h1, by simp [h1], by simp [h1, respond_async, hne, hl, hg]⟩

/-- Witness for C4: with a responder that always raises and a cache holding
only "x", the query "q" makes `respond_async` raise (result `none`), with
the cache unchanged and the responder having been invoked. -/
theorem c4_witness :
    respond_async (fun _ => none) [("x", "y")] "q" =
      (none, [("x", "y")], true) :=
  ((c4_generation_failure_raises (fun _ => none) [("x", "y")] "q"
    (by decide)).2 (by decide) rfl).1

/-- A filterMap over reads that all succeed keeps every element. -/
theorem filterMap_length_of_isSome {α β : Type} (f : α → Option β) :
    ∀ l : List α, (∀ i ∈ l, (f i).isSome) → (l.filterMap f).length = l.length := by
  intro l
  induction l with
  | nil => simp
  | cons a l ih =>
    intro h
    obtain ⟨b, hb⟩ := Option.isSome_iff_exists.mp (h a (by simp))
    simp [List.filterMap_cons, hb, ih (fun i hi => h i (by simp [hi]))]

/-- Counterexample to claim C5 as stated: at rate 16000, frame size 1024 and
duration 2 s, a run in which every single read succeeds still collects only
`int(16000/1024*2) = 31` frames, strictly fewer than the claimed bound
`ceil(16000*2/1024) = 32` — so collecting fewer than the ceiling bound does
not imply that any frame read failed. -/
theorem c5_counterexample :
    (record (fun _ => true) (fun _ => some []) true 2).frames.length = 31 ∧
    ceilFrames 2 = 32 ∧
    (record (fun _ => true) (fun _ => some []) true 2).frames.length <
      ceilFrames 2 ∧
    ((List.range (totalFrames 2)).all
      (fun i => ((fun _ => some ([] : List Int)) i).isSome)) = true := by
  decide

/-- Claim C5 (amended): with the stream opened, `record` collects at most
`int(rate/frame_size * duration)` = `totalFrames` frames (the truncating
bound of the source, which is at most the claimed ceiling), and collects fewer
than that bound only if some individual frame read failed; failed reads are
skipped (contributing nothing to the frame list), not zero-padded, and do
not abort the session. -/
theorem c5_frame_bound (openResults : Nat → Bool)
    (reads : Nat → Option (List Int)) (saveOk : Bool) (seconds : Nat)
    (hopen : (setup_stream openResults).1.isSome) :
    (record openResults reads saveOk seconds).frames.length ≤
      totalFrames seconds ∧
    ((record openResults reads saveOk seconds).frames.length <
        totalFrames seconds →
      ∃ i, i < totalFrames seconds ∧ reads i = none) := by
  rcases hs : setup_stream openResults with ⟨os, n⟩
  cases os with
  | none => rw [hs] at hopen; simp at hopen
  | some u =>
    have hrec : (record openResults reads saveOk seconds).frames =
        (List.range (totalFrames seconds)).filterMap reads := by
      simp [record, hs]
    rw [hrec]
    constructor
    · simpa using List.length_filterMap_le reads (List.range (totalFrames seconds))
    · intro hlt
      by_contra hno
      push_neg at hno
      have hall : ∀ i ∈ List.range (totalFrames seconds), (reads i).isSome := by
        intro i hi
        rcases hr : reads i with _ | v
        · exact absurd hr (hno i (List.mem_range.mp hi))
        · simp
      rw [filterMap_length_of_isSome reads _ hall, List.length_range] at hlt
      exact lt_irrefl _ hlt

/-- Witness for C5 (amended): one failing read (index 0) at duration 2
yields 30 < 31 collected frames, and a failed read below the bound exists. -/
theorem c5_witness :
    (record (fun _ => true) (fun i => if i = 0 then none else some []) true
        2).frames.length < totalFrames 2 ∧
    ∃ i, i < totalFrames 2 ∧
      (fun i => if i = 0 then none else some ([] : List Int)) i = none :=
  ⟨by decide,
    (c5_frame_bound (fun _ => true) (fun i => if i = 0 then none else some [])
      true 2 (by decide)).2 (by decide)⟩

/-- Claim C6 (code bug): when every device-open attempt fails, exactly 3
open attempts are made and the `finally`-scoped stream-cleanup path is
executed (finding no stream bound, it has nothing to close); but `record`
does NOT return `None` to its caller: its except suite calls
`ErrorHandler.handle_error(e, "recording audio")` unbound, which raises
`AttributeError`, so the `return None` is dead code and `record` propagates
the `AttributeError` to its caller after the `finally` runs (`result =
none` below means the call raises). -/
theorem c6_open_failure_raises (openResults : Nat → Bool)
    (reads : Nat → Option (List Int)) (saveOk : Bool) (seconds : Nat)
    (hfail : ∀ i, i < 3 → openResults i = false) :
    record openResults reads saveOk seconds =
      { result := none, frames := [], openAttempts := 3,
        cleanupInvoked := false, finallyExecuted := true } := by
  have hs : setup_stream openResults = (none, 3) := by
    simp [setup_stream, setupLoop, hfail 0 (by omega), hfail 1 (by omega),
      hfail 2 (by omega)]
  simp [record, hs]

/-- Witness for C6: all opens failing with a 7-second session (the value of
`record_seconds` in the source): 3 attempts, the finally runs, and the call
raises instead of returning a null capture. -/
theorem c6_witness :
    record (fun _ => false) (fun _ => some []) true 7 =
      { result := none, frames := [], openAttempts := 3,
        cleanupInvoked := false, finallyExecuted := true } :=
  c6_open_failure_raises (fun _ => false) (fun _ => some []) true 7
    (fun _ _ => rfl)

/-- Claim C9: any audio artifact whose format is not exactly mono, 16-bit
(2-byte samples), 16000 Hz is rejected by `transcribe_audio` with a `None`
result, and no audio content is ever fed to the recognizer (no resampling,
no transcription attempt). -/
theorem c9_format_rejection (rec : List (List Int) → Option String)
    (file : Option WavFile) (wf : WavFile) (hfile : file = some wf)
    (hbad : wf.nchannels ≠ 1 ∨ wf.sampwidth ≠ 2 ∨ wf.framerate ≠ 16000) :
    transcribe_audio rec file = { result := none, recognizerFed := false } := by
  subst hfile
  simp only [transcribe_audio]
  rw [if_pos hbad]

/-- Witness for C9: a stereo 16-bit 16000 Hz artifact is rejected without
the recognizer seeing any audio. -/
theorem c9_witness :
    transcribe_audio (fun _ => some "text") (some ⟨2, 2, 16000, []⟩) =
      { result := none, recognizerFed := false } :=
  c9_format_rejection (fun _ => some "text") (some ⟨2, 2, 16000, []⟩)
    ⟨2, 2, 16000, []⟩ rfl (by decide)

/-- Counterexample to claim C8 as stated: on the normal-stop shutdown path
of `run_assistant`, `wake_detector.cleanup()` is invoked twice — once by the
scope exit of the `with` statement and once by the outer `finally` block, not
exactly once. -/
theorem c8_counterexample :
    cleanup_invocations LoopExit.stopCommand = 2 ∧
    cleanup_invocations LoopExit.stopCommand ≠ 1 := by
  decide

/-- Claim C8 (amended): on every shutdown path of the orchestrator loop
(normal stop or interruption), the cleanup routine of the WakeMonitor is invoked
exactly twice — once by the context-manager exit and once by the redundant
`finally` block — so it is never skipped (the resources are released by the
first invocation; the second finds them already released). -/
theorem c8_cleanup_twice :
    cleanup_invocations LoopExit.stopCommand = 2 ∧
    cleanup_invocations LoopExit.keyboardInterrupt = 2 := by
  decide
